import Mathlib

/-!
Verification of the paper-trading settlement/accounting engine in
`auto_trade.py` (repository stock-dashboard-v1).

The engine's numeric code is embedded over `ℚ` (prices, rates) and `ℤ`
(share counts, currency amounts produced by Python's `int(...)`).
Money amounts and fees are nonnegative in every reachable state, where
Python's `int()` truncation coincides with `⌊·⌋`.
-/

namespace AutoTrade

/-- Python `int(q)`: truncation toward zero. -/
def pyInt (q : ℚ) : ℤ := if 0 ≤ q then ⌊q⌋ else ⌈q⌉

/-- `FEE_RATE = 0.001425` (auto_trade.py line 21). -/
def FEE_RATE : ℚ := 1425 / 1000000

/-- `TAX_RATE = 0.003` (auto_trade.py line 22). -/
def TAX_RATE : ℚ := 3 / 1000

/-- `calculate_cost(price, shares)` (auto_trade.py lines 39-43):
`amount = price*shares; fee = max(20, int(amount*FEE_RATE));
return int(amount + fee), fee`. -/
def calculate_cost (price : ℚ) (shares : ℤ) : ℤ × ℤ :=
  let amount := price * shares
  let fee := max 20 (pyInt (amount * FEE_RATE))
  (pyInt (amount + fee), fee)

/-- `calculate_revenue(price, shares)` (auto_trade.py lines 45-50):
`amount = price*shares; fee = max(20, int(amount*FEE_RATE));
tax = int(amount*TAX_RATE); return int(amount - fee - tax), fee, tax`. -/
def calculate_revenue (price : ℚ) (shares : ℤ) : ℤ × ℤ × ℤ :=
  let amount := price * shares
  let fee := max 20 (pyInt (amount * FEE_RATE))
  let tax := pyInt (amount * TAX_RATE)
  (pyInt (amount - fee - tax), fee, tax)

/-- Python `round(x, 2)`: round to 2 decimal places, ties to the even
hundredth. -/
def round2 (q : ℚ) : ℚ :=
  let n := q * 100
  let m := ⌊n⌋
  let r : ℤ :=
    if n - m < 1/2 then m
    else if (1 : ℚ)/2 < n - m then m + 1
    else if m % 2 = 0 then m else m + 1
  (r : ℚ) / 100

inductive Action where
  | BUY
  | SELL
deriving DecidableEq, Repr

inductive OrderStatus where
  | PENDING
  | FILLED
  | CANCELLED
deriving DecidableEq, Repr

/-- An order row of `sim_orders` (the fields settlement reads). -/
structure Order where
  action : Action
  order_price : ℚ
  shares : ℤ
deriving DecidableEq, Repr

/-- One day's price bar of `fact_price` (the fields settlement reads). -/
structure Bar where
  low : ℚ
  high : ℚ
  close : ℚ
deriving DecidableEq, Repr

/-- A row of `sim_transactions`. -/
structure Transaction where
  action : Action
  price : ℚ
  shares : ℤ
  fee : ℤ
  tax : ℤ
  total_amount : ℤ
deriving DecidableEq, Repr

/-- `run_settlement` lines 505-507: the `executed` flag for a PENDING order
whose symbol has a bar `row` on the settlement date.  Only a BUY with
`row.low <= order.order_price` executes; there is no SELL branch. -/
def settle_executed (order : Order) (row : Bar) : Bool :=
  order.action = Action.BUY && decide (row.low ≤ order.order_price)

/-- `run_settlement` lines 509-514: resulting status for a PENDING order
with a bar on the settlement date. -/
def settle_status (order : Order) (row : Bar) : OrderStatus :=
  if settle_executed order row then OrderStatus.FILLED else OrderStatus.CANCELLED

/-- `run_settlement` line 510: the transaction recorded for a BUY fill
(`'tax': 0`). -/
def buy_fill_transaction (order : Order) : Transaction :=
  let c := calculate_cost order.order_price order.shares
  ⟨Action.BUY, order.order_price, order.shares, c.2, 0, c.1⟩

/-- `run_settlement` lines 549-552: the transaction recorded for a forced
SELL of an inventory item at the settlement day's close. -/
def sell_transaction (close_price : ℚ) (shares : ℤ) : Transaction :=
  let r := calculate_revenue close_price shares
  ⟨Action.SELL, close_price, shares, r.2.1, r.2.2, r.1⟩

lemma pyInt_of_nonneg {q : ℚ} (h : 0 ≤ q) : pyInt q = ⌊q⌋ := by
  simp [pyInt, h]

/-- C7: for nonnegative price and share count, the fee of both
`calculate_cost` and `calculate_revenue` is `max 20 ⌊amount × 0.001425⌋`,
the tax of `calculate_revenue` is `⌊amount × 0.003⌋`, a BUY-fill
transaction always carries tax 0, and the worked example
`price = 580, shares = 1000` yields amount 580000, fee 826 and total BUY
cost 580826. -/
theorem C7_fee_tax (price : ℚ) (shares : ℤ)
    (hp : 0 ≤ price) (hs : 0 ≤ shares) :
    (calculate_cost price shares).2 = max 20 ⌊price * shares * (1425/1000000 : ℚ)⌋ ∧
    (calculate_revenue price shares).2.1 = max 20 ⌊price * shares * (1425/1000000 : ℚ)⌋ ∧
    (calculate_revenue price shares).2.2 = ⌊price * shares * (3/1000 : ℚ)⌋ ∧
    (∀ o : Order, (buy_fill_transaction o).tax = 0) ∧
    (580 : ℚ) * (1000 : ℤ) = 580000 ∧
    calculate_cost 580 1000 = (580826, 826) := by
  have hamount : (0 : ℚ) ≤ price * shares := by
    have : (0 : ℚ) ≤ (shares : ℚ) := by exact_mod_cast hs
    exact mul_nonneg hp this
  have hfee : (0 : ℚ) ≤ price * shares * (1425/1000000 : ℚ) := by
    apply mul_nonneg hamount
    norm_num
  have htax : (0 : ℚ) ≤ price * shares * (3/1000 : ℚ) := by
    apply mul_nonneg hamount
    norm_num
  refine ⟨?_, ?_, ?_, ?_, by norm_num, ?_⟩
  · simp [calculate_cost, FEE_RATE, pyInt_of_nonneg hfee]
  · simp [calculate_revenue, FEE_RATE, pyInt_of_nonneg hfee]
  · simp [calculate_revenue, TAX_RATE, pyInt_of_nonneg htax]
  · intro o
    simp [buy_fill_transaction]
  · have h1 : ((580 : ℚ) * ((1000 : ℤ) : ℚ)) * FEE_RATE = 1653/2 := by
      norm_num [FEE_RATE]
    have h2 : pyInt (1653/2 : ℚ) = 826 := by
      rw [pyInt_of_nonneg (by norm_num)]
      norm_num [Int.floor_eq_iff]
    simp only [calculate_cost, h1, h2]
    norm_num [pyInt_of_nonneg]

/-- Witness for C7 at price 580, 1000 shares. -/
theorem C7_fee_tax_witness :
    (0 : ℚ) ≤ 580 ∧ (0 : ℤ) ≤ 1000 ∧
    (calculate_cost 580 1000).2 = max 20 ⌊(580 : ℚ) * (1000 : ℤ) * (1425/1000000 : ℚ)⌋ := by
  refine ⟨by norm_num, by norm_num, (C7_fee_tax 580 1000 (by norm_num) (by norm_num)).1⟩

/-- A row of `sim_inventory` (the fields `update_inventory` touches). -/
structure Position where
  shares : ℤ
  avg_cost : ℚ
deriving DecidableEq, Repr

/-- `update_inventory(stock_id, shares, price)` (auto_trade.py lines
562-572), as a pure function of the symbol's current inventory row
(`none` = no row): on an existing row, `new_shares = old + shares`; if
positive, the average cost becomes the cost-weighted mean when buying
(`shares > 0`) and is kept otherwise; at zero or below the row is
deleted; with no existing row, a row is inserted only when `shares > 0`,
at `avg_cost = price`. -/
def update_inventory (inv : Option Position) (shares : ℤ) (price : ℚ) :
    Option Position :=
  match inv with
  | some p =>
      let new_shares := p.shares + shares
      if new_shares > 0 then
        let avg_cost :=
          if shares > 0 then
            ((p.shares : ℚ) * p.avg_cost + (shares : ℚ) * price) / (new_shares : ℚ)
          else p.avg_cost
        some ⟨new_shares, avg_cost⟩
      else none
  | none => if shares > 0 then some ⟨shares, price⟩ else none

/-- C6: a BUY fill of `s` shares at `p` into a position `(s0, a0)` yields
`s0 + s` shares at the cost-weighted average; a BUY into an empty position
sets `avg_cost = p`; and two BUY fills `s1@p1`, `s2@p2` from empty give
`avg_cost = (s1·p1 + s2·p2)/(s1 + s2)` in either order. -/
theorem C6_avg_cost (s0 s s1 s2 : ℤ) (a0 p p1 p2 : ℚ)
    (hs0 : 0 < s0) (hs : 0 < s) (hs1 : 0 < s1) (hs2 : 0 < s2) :
    update_inventory (some ⟨s0, a0⟩) s p =
      some ⟨s0 + s, ((s0 : ℚ) * a0 + (s : ℚ) * p) / ((s0 : ℚ) + (s : ℚ))⟩ ∧
    update_inventory none s p = some ⟨s, p⟩ ∧
    update_inventory (update_inventory none s1 p1) s2 p2 =
      some ⟨s1 + s2, ((s1 : ℚ) * p1 + (s2 : ℚ) * p2) / ((s1 : ℚ) + (s2 : ℚ))⟩ ∧
    update_inventory (update_inventory none s2 p2) s1 p1 =
      some ⟨s2 + s1, ((s1 : ℚ) * p1 + (s2 : ℚ) * p2) / ((s1 : ℚ) + (s2 : ℚ))⟩ := by
  have key : ∀ (u v : ℤ) (au av : ℚ), 0 < u → 0 < v →
      update_inventory (update_inventory none u au) v av =
        some ⟨u + v, ((u : ℚ) * au + (v : ℚ) * av) / ((u : ℚ) + (v : ℚ))⟩ := by
    intro u v au av hu hv
    have huv : 0 < u + v := by omega
    simp only [update_inventory, if_pos hu, if_pos huv, if_pos hv]
    norm_num
  refine ⟨?_, ?_, key s1 s2 p1 p2 hs1 hs2, ?_⟩
  · have h0s : 0 < s0 + s := by omega
    simp only [update_inventory, if_pos h0s, if_pos hs]
    norm_num
  · simp [update_inventory, if_pos hs]
  · rw [key s2 s1 p2 p1 hs2 hs1]
    have hsum : ((s2 : ℚ) + (s1 : ℚ)) ≠ 0 := by
      have : (0 : ℚ) < (s2 : ℚ) + (s1 : ℚ) := by
        have h2 : (0 : ℚ) < (s2 : ℚ) := by exact_mod_cast hs2
        have h1 : (0 : ℚ) < (s1 : ℚ) := by exact_mod_cast hs1
        linarith
      exact ne_of_gt this
    congr 1
    congr 1
    rw [div_eq_div_iff hsum]
    · ring
    · have h2 : (0 : ℚ) < (s2 : ℚ) := by exact_mod_cast hs2
      have h1 : (0 : ℚ) < (s1 : ℚ) := by exact_mod_cast hs1
      linarith

/-- Witness for C6: two 1000-share fills at 100 and 200 from empty. -/
theorem C6_avg_cost_witness :
    update_inventory (update_inventory none 1000 100) 500 160 =
      some ⟨1500, ((1000 : ℚ) * 100 + (500 : ℚ) * 160) / ((1000 : ℚ) + (500 : ℚ))⟩ := by
  exact (C6_avg_cost 1 1 1000 500 0 0 100 160 (by norm_num) (by norm_num)
    (by norm_num) (by norm_num)).2.2.1

/-- The fill condition §4.3 of the spec states, written from the spec's
words for comparison with `settle_executed`: BUY fills iff
`bar.low ≤ limit`, SELL fills iff `bar.high ≥ limit`. -/
def spec_fill_condition (order : Order) (row : Bar) : Bool :=
  (order.action = Action.BUY && decide (row.low ≤ order.order_price)) ||
  (order.action = Action.SELL && decide (row.high ≥ order.order_price))

/-- C3 counterexample: a PENDING SELL at limit 100 against a bar with
high 120 satisfies the spec's SELL fill condition (high ≥ limit), yet
`run_settlement` transitions it to CANCELLED — its `executed` flag has no
SELL branch. -/
theorem C3_counterexample :
    spec_fill_condition ⟨Action.SELL, 100, 1000⟩ ⟨90, 120, 110⟩ = true ∧
    settle_status ⟨Action.SELL, 100, 1000⟩ ⟨90, 120, 110⟩ = OrderStatus.CANCELLED := by
  constructor
  · simp [spec_fill_condition]
    norm_num
  · simp [settle_status, settle_executed]

/-- C3 amended: a PENDING order whose symbol has a bar on the settlement
date transitions to FILLED iff it is a BUY and the bar's low ≤ its limit
price; every PENDING SELL order with a bar transitions to CANCELLED
regardless of the bar. -/
theorem C3_fill_rule (order : Order) (row : Bar) :
    (settle_status order row = OrderStatus.FILLED ↔
      order.action = Action.BUY ∧ row.low ≤ order.order_price) ∧
    (order.action = Action.SELL →
      settle_status order row = OrderStatus.CANCELLED) := by
  constructor
  · simp [settle_status, settle_executed]
  · intro h
    simp [settle_status, settle_executed, h]

/-- Witness for C3 at a SELL order. -/
theorem C3_fill_rule_witness :
    settle_status ⟨Action.SELL, 50, 2000⟩ ⟨40, 60, 55⟩ = OrderStatus.CANCELLED :=
  (C3_fill_rule ⟨Action.SELL, 50, 2000⟩ ⟨40, 60, 55⟩).2 rfl

/-- `run_settlement` lines 500-514 as a per-cycle status step: only PENDING
orders are fetched; a PENDING order whose symbol has no bar on the
settlement date is skipped (`if stock_data.empty: continue`) and keeps its
status; with a bar it settles by `settle_status`; FILLED and CANCELLED
orders are never touched again. -/
def settle_cycle_status (status : OrderStatus) (order : Order) (bar : Option Bar) :
    OrderStatus :=
  match status, bar with
  | OrderStatus.PENDING, some row => settle_status order row
  | OrderStatus.PENDING, none => OrderStatus.PENDING
  | s, _ => s

/-- C9 counterexample: an order whose symbol has no bar on two consecutive
settlement dates is still PENDING after both cycles — it is not swept to
CANCELLED after one extra cycle. -/
theorem C9_counterexample :
    settle_cycle_status
      (settle_cycle_status OrderStatus.PENDING ⟨Action.BUY, 580, 1000⟩ none)
      ⟨Action.BUY, 580, 1000⟩ none = OrderStatus.PENDING := by
  rfl

/-- C9 amended: a PENDING order settles to a terminal state (FILLED or
CANCELLED) in the first cycle in which its symbol has a bar on the
settlement date; terminal states are absorbing; but a PENDING order whose
symbol has no bar stays PENDING through any number of barless cycles —
it is retried indefinitely, with no CANCELLED sweep. -/
theorem C9_lifecycle (order : Order) (row : Bar) (b : Option Bar) (n : ℕ) :
    (settle_cycle_status OrderStatus.PENDING order (some row) = OrderStatus.FILLED ∨
     settle_cycle_status OrderStatus.PENDING order (some row) = OrderStatus.CANCELLED) ∧
    settle_cycle_status OrderStatus.FILLED order b = OrderStatus.FILLED ∧
    settle_cycle_status OrderStatus.CANCELLED order b = OrderStatus.CANCELLED ∧
    (fun s => settle_cycle_status s order none)^[n] OrderStatus.PENDING =
      OrderStatus.PENDING := by
  refine ⟨?_, by cases b <;> rfl, by cases b <;> rfl, ?_⟩
  · simp only [settle_cycle_status, settle_status]
    split <;> simp
  · induction n with
    | zero => rfl
    | succ k ih => rw [Function.iterate_succ_apply, show settle_cycle_status
        OrderStatus.PENDING order none = OrderStatus.PENDING from rfl, ih]

/-- `run_settlement` lines 504-513: effect on the account's
`cash_balance` of settling one PENDING order that has a bar on the
settlement date.  On a fill the loop records a transaction and an
inventory update but never subtracts from `cash`; on a non-fill it adds
`calculate_cost(...)` back for a BUY (the "refund"). -/
def settle_order_cash (cash : ℚ) (order : Order) (row : Bar) : ℚ :=
  if settle_executed order row then cash
  else if order.action = Action.BUY then
    cash + ((calculate_cost order.order_price order.shares).1 : ℚ)
  else cash

/-- `run_settlement` lines 548-552: effect on `cash_balance` of a forced
SELL of an inventory item at the settlement day's close
(`cash += revenue`). -/
def sell_settle_cash (cash : ℚ) (close_price : ℚ) (shares : ℤ) : ℚ :=
  cash + ((calculate_revenue close_price shares).1 : ℚ)

/-- `run_prediction` lines 470-484: the proposal phase decrements only the
local variables `current_cash` / `real_cash` while filtering affordable
orders, inserts the surviving orders into `sim_orders`, and performs no
write to `sim_account` — the stored `cash_balance` is unchanged by
proposing. -/
def run_prediction_cash (cash : ℚ) : ℚ := cash

/-- C1 (code bug, evaluated at the failing input): for the PENDING BUY
order 1000 shares at limit 580 (cost 580826) and starting cash 1000000:
when the settlement bar's low is 570 the order fills but `cash_balance`
stays 1000000 instead of decreasing to 419174; when the bar's low is 590
the order cancels and the propose-then-cancel round trip leaves
`cash_balance` at 1580826 — the "refund" credits a reservation that
`run_prediction` never debited — instead of returning it to 1000000. -/
theorem C1_settlement_cash_bug :
    calculate_cost 580 1000 = (580826, 826) ∧
    settle_order_cash 1000000 ⟨Action.BUY, 580, 1000⟩ ⟨570, 600, 595⟩ = 1000000 ∧
    settle_order_cash 1000000 ⟨Action.BUY, 580, 1000⟩ ⟨570, 600, 595⟩ ≠
      1000000 - 580826 ∧
    settle_order_cash (run_prediction_cash 1000000)
      ⟨Action.BUY, 580, 1000⟩ ⟨590, 600, 595⟩ = 1580826 ∧
    settle_order_cash (run_prediction_cash 1000000)
      ⟨Action.BUY, 580, 1000⟩ ⟨590, 600, 595⟩ ≠ 1000000 := by
  have hc : calculate_cost 580 1000 = (580826, 826) := by
    have h1 : ((580 : ℚ) * ((1000 : ℤ) : ℚ)) * FEE_RATE = 1653/2 := by
      norm_num [FEE_RATE]
    have h2 : pyInt (1653/2 : ℚ) = 826 := by
      rw [pyInt_of_nonneg (by norm_num)]
      norm_num [Int.floor_eq_iff]
    simp only [calculate_cost, h1, h2]
    norm_num [pyInt_of_nonneg]
  have hfill : settle_executed ⟨Action.BUY, 580, 1000⟩ ⟨570, 600, 595⟩ = true := by
    simp [settle_executed]
    norm_num
  have hmiss : settle_executed ⟨Action.BUY, 580, 1000⟩ ⟨590, 600, 595⟩ = false := by
    simp [settle_executed]
    norm_num
  refine ⟨hc, ?_, ?_, ?_, ?_⟩
  · simp [settle_order_cash, hfill]
  · simp [settle_order_cash, hfill]
    norm_num
  · simp [settle_order_cash, hmiss, run_prediction_cash, hc]
    norm_num
  · simp [settle_order_cash, hmiss, run_prediction_cash, hc]

inductive ExitReason where
  | stopLoss
  | takeProfit
  | techExit
deriving DecidableEq, Repr

/-- `run_settlement` lines 539-547: the exit decision for one inventory
item, from the day's close, the position's average cost, the configured
stop-loss and take-profit percentages and the technical-exit signal
(`check_technical_exit`, queried only in the last branch):
`roi = (close - avg_cost)/avg_cost`;
`if roi <= -stop_loss_pct` → stop-loss SELL;
`elif take_profit_pct > 0` → SELL only if `roi >= take_profit_pct`;
`elif roi > 0` → SELL only if the technical signal fires. -/
def run_settlement_exit (close_price avg_cost stop_loss_pct take_profit_pct : ℚ)
    (tech_signal : Bool) : Option ExitReason :=
  let roi := (close_price - avg_cost) / avg_cost
  if roi ≤ -stop_loss_pct then some ExitReason.stopLoss
  else if take_profit_pct > 0 then
    if roi ≥ take_profit_pct then some ExitReason.takeProfit else none
  else if roi > 0 then
    if tech_signal then some ExitReason.techExit else none
  else none

/-- C8: the exit decision returns at most one reason (it is an `Option`),
chosen by first match in the order stop-loss, then fixed take-profit
(only when `take_profit_pct > 0`), then technical exit (only when
`¬(take_profit_pct > 0)` and `roi > 0`); and with `avg_cost = 100`,
`stop_loss_pct = 0.05`, close 94 forces a stop-loss SELL while close 96
forces nothing, for every `take_profit_pct` and technical signal. -/
theorem C8_exit_rules (c a sl tp : ℚ) (tech : Bool) :
    (run_settlement_exit c a sl tp tech = some ExitReason.stopLoss ↔
      (c - a) / a ≤ -sl) ∧
    (run_settlement_exit c a sl tp tech = some ExitReason.takeProfit ↔
      ¬((c - a) / a ≤ -sl) ∧ 0 < tp ∧ tp ≤ (c - a) / a) ∧
    (run_settlement_exit c a sl tp tech = some ExitReason.techExit ↔
      ¬((c - a) / a ≤ -sl) ∧ ¬(0 < tp) ∧ 0 < (c - a) / a ∧ tech = true) ∧
    run_settlement_exit 94 100 (5/100) tp tech = some ExitReason.stopLoss ∧
    run_settlement_exit 96 100 (5/100) tp tech = none := by
  refine ⟨?_, ?_, ?_, ?_, ?_⟩
  · simp only [run_settlement_exit]
    split_ifs <;> simp_all
  · simp only [run_settlement_exit, ge_iff_le]
    split_ifs <;> simp_all
  · simp only [run_settlement_exit]
    split_ifs <;> simp_all
  · have h : ((94 : ℚ) - 100) / 100 ≤ -(5/100) := by norm_num
    simp [run_settlement_exit, h]
  · have h1 : ¬(((96 : ℚ) - 100) / 100 ≤ -(5/100)) := by norm_num
    simp only [run_settlement_exit, ge_iff_le, if_neg h1]
    split_ifs with h2 h3 h4 <;> first
      | rfl
      | (exact absurd (le_trans (le_of_lt h2) h3) (by norm_num))
      | (exact absurd h4 (by norm_num))

/-- `run_prediction` lines 435-452 (the generic technical-strategy
branch): `shares = int(final_trade_size // limit_price)`; an order is
appended only when `shares > 0` and the estimated cost fits in the
running cash (`current_cash >= est_cost`).  Result: the proposed share
count, `none` when no order is proposed. -/
def generic_branch_order (final_trade_size limit_price current_cash : ℚ) :
    Option ℤ :=
  let shares := ⌊final_trade_size / limit_price⌋
  if shares > 0 then
    if ((calculate_cost limit_price shares).1 : ℚ) ≤ current_cash then some shares
    else none
  else none

/-- Position sizing as §4.2 of the spec words it, for comparison with
`generic_branch_order`: `floor(budget / limit_price)` floored down to the
nearest 1000-share lot. -/
def spec_lot_shares (budget limit_price : ℚ) : ℤ :=
  1000 * (⌊budget / limit_price⌋ / 1000)

lemma floor_100000_div_580 : ⌊(100000 : ℚ) / 580⌋ = 172 := by
  rw [Int.floor_eq_iff]
  norm_num

lemma calculate_cost_580_172 : calculate_cost 580 172 = (99902, 142) := by
  have h1 : ((580 : ℚ) * ((172 : ℤ) : ℚ)) * FEE_RATE = 142158/1000 := by
    norm_num [FEE_RATE]
  have h2 : pyInt (142158/1000 : ℚ) = 142 := by
    rw [pyInt_of_nonneg (by norm_num)]
    rw [Int.floor_eq_iff]
    norm_num
  simp only [calculate_cost, h1, h2]
  norm_num [pyInt_of_nonneg]

/-- C2 counterexample: with budget 100000 and limit price 580 (and ample
cash), the code proposes an order of `int(100000 // 580) = 172` shares —
there is no lot rounding — whereas the spec's lot-floored sizing gives 0
shares and hence no order. -/
theorem C2_counterexample :
    generic_branch_order 100000 580 1000000 = some 172 ∧
    spec_lot_shares 100000 580 = 0 := by
  constructor
  · simp only [generic_branch_order, floor_100000_div_580, calculate_cost_580_172]
    norm_num
  · simp [spec_lot_shares, floor_100000_div_580]

/-- C2 amended: the proposed share count is `floor(budget / limit_price)`
with no rounding to a 1000-share trading lot; a result of 0 shares (or
insufficient cash) means no order is proposed, a no-op; in particular
budget 100000 at limit price 580 proposes a 172-share order when cash
suffices. -/
theorem C2_sizing (b p cash : ℚ) :
    (∀ s : ℤ, generic_branch_order b p cash = some s →
      s = ⌊b / p⌋ ∧ 0 < s) ∧
    (⌊b / p⌋ ≤ 0 → generic_branch_order b p cash = none) := by
  constructor
  · intro s hs
    simp only [generic_branch_order] at hs
    split_ifs at hs with h1 h2
    · exact ⟨(Option.some_inj.mp hs).symm, (Option.some_inj.mp hs) ▸ h1⟩
  · intro h
    simp only [generic_branch_order]
    rw [if_neg (by omega)]

/-- Witness for C2 at budget 100000, price 580, cash 1000000. -/
theorem C2_sizing_witness :
    (172 : ℤ) = ⌊(100000 : ℚ) / 580⌋ ∧ (0 : ℤ) < 172 := by
  refine (C2_sizing 100000 580 1000000).1 172 ?_
  simp only [generic_branch_order, floor_100000_div_580, calculate_cost_580_172]
  norm_num

/-- A pandas DataFrame row: column name to value.  `get?` is plain
indexing (`row[col]`, raises `KeyError` on a missing column, here
`none`); `get` is `row.get(col, default)`, which never raises. -/
structure Row where
  cols : List (String × ℚ)

def Row.get? (r : Row) (k : String) : Option ℚ :=
  (r.cols.find? (fun p => p.1 == k)).map (·.2)

def Row.get (r : Row) (k : String) (d : ℚ) : ℚ := (r.get? k).getD d

/-- `calculate_confidence(df, strategy_name, p1, p2)` (auto_trade.py lines
120-170).  The whole body runs in a `try`; `none` stands for a raised
exception (too few rows for `iloc[-2]`, or a missing indicator column) as
well as for the silent fall-through on an unknown strategy name; every
such path ends at `return 0.75`. -/
def calculate_confidence (df : List Row) (strategy_name : String) (p1 p2 : ℕ) : ℚ :=
  let body : Option ℚ :=
    match df.reverse with
    | last :: prev :: _ =>
      if strategy_name = "MA_CROSS" then
        match last.get? "MA_S", prev.get? "MA_S" with
        | some lastS, some prevS =>
            let slope := (lastS - prevS) / prevS
            some (round2 (min (1/2 + slope * 50) (19/20)))
        | _, _ => none
      else if strategy_name = "RSI_REVERSAL" then
        match last.get? "RSI" with
        | some rsi => some (round2 (1 - rsi / 100))
        | none => none
      else if strategy_name = "KD_CROSS" then
        match last.get? ("STOCHk_" ++ toString p1 ++ "_3_3") with
        | some k => some (round2 (1 - k / 100))
        | none => none
      else if strategy_name = "MACD_CROSS" then
        match last.get? ("MACDh_" ++ toString p1 ++ "_" ++ toString p2 ++ "_9") with
        | some v => some (round2 (1/2 + min (|v| / 2) (9/20)))
        | none => none
      else if strategy_name = "N1_MOMENTUM" then
        let momentum := last.get "momentum" 0
        let rsi := last.get "RSI" 50
        some (min (round2 (2/5 + momentum * 2 + (1 - rsi / 100) * (1/5))) (49/50))
      else if strategy_name = "BEST_OF_3" then
        let drawdown := |last.get "drawdown" 0|
        some (min (round2 (3/5 + drawdown * 2)) (99/100))
      else none
    | _ => none
  body.getD (3/4)

/-- C10: `calculate_confidence` is total with a silent 0.75 fallback: an
unknown strategy name yields 0.75 on every frame; a frame with fewer than
two rows yields 0.75 for every strategy name (`iloc[-2]` raises); a
MA_CROSS frame whose last row lacks the `MA_S` column yields 0.75
(`KeyError`); and 0.75 exceeds the default confidence threshold 0.7. -/
theorem C10_confidence_fallback (df : List Row) (name : String) (p1 p2 : ℕ) :
    (name ≠ "MA_CROSS" → name ≠ "RSI_REVERSAL" → name ≠ "KD_CROSS" →
      name ≠ "MACD_CROSS" → name ≠ "N1_MOMENTUM" → name ≠ "BEST_OF_3" →
      calculate_confidence df name p1 p2 = 3/4) ∧
    (df.length < 2 → calculate_confidence df name p1 p2 = 3/4) ∧
    (∀ last prev tl, df.reverse = last :: prev :: tl →
      Row.get? last "MA_S" = none →
      calculate_confidence df "MA_CROSS" p1 p2 = 3/4) ∧
    (3/4 : ℚ) > 7/10 := by
  refine ⟨?_, ?_, ?_, by norm_num⟩
  · intro h1 h2 h3 h4 h5 h6
    rcases hr : df.reverse with _ | ⟨last, _ | ⟨prev, tl⟩⟩ <;>
      simp [calculate_confidence, hr, h1, h2, h3, h4, h5, h6]
  · intro hlen
    have hsplit : df.reverse = [] ∨ ∃ a, df.reverse = [a] := by
      rcases hd : df.reverse with _ | ⟨a, _ | ⟨b, t⟩⟩
      · exact Or.inl rfl
      · exact Or.inr ⟨a, rfl⟩
      · exfalso
        have hlen2 := congrArg List.length hd
        simp at hlen2
        omega
    rcases hsplit with h | ⟨a, h⟩ <;> simp [calculate_confidence, h]
  · intro last prev tl hrev hget
    simp [calculate_confidence, hrev, hget]

/-- Witness for C10: an unknown strategy name, a one-row frame, and a
two-row frame without `MA_S` all give 0.75. -/
theorem C10_confidence_fallback_witness :
    calculate_confidence [] "FOO" 5 20 = 3/4 ∧
    calculate_confidence [⟨[("close", 1)]⟩] "MA_CROSS" 5 20 = 3/4 ∧
    calculate_confidence [⟨[]⟩, ⟨[]⟩] "MA_CROSS" 5 20 = 3/4 := by
  refine ⟨?_, ?_, ?_⟩
  · exact (C10_confidence_fallback [] "FOO" 5 20).1 (by decide) (by decide)
      (by decide) (by decide) (by decide) (by decide)
  · exact (C10_confidence_fallback [⟨[("close", 1)]⟩] "MA_CROSS" 5 20).2.1 (by simp)
  · exact (C10_confidence_fallback [⟨[]⟩, ⟨[]⟩] "MA_CROSS" 5 20).2.2.1
      ⟨[]⟩ ⟨[]⟩ [] (by simp) (by simp [Row.get?])

/-- One entry of the N1 `candidates` list (auto_trade.py lines 239-242). -/
structure N1Candidate where
  stock_id : String
  momentum : ℚ
  rsi : ℚ
  price : ℚ
  trend_ok : Bool

/-- An order as proposed by `run_prediction` (the fields C5 is about). -/
structure ProposedOrder where
  stock_id : String
  order_price : ℚ
  shares : ℤ

/-- The `N1_MOMENTUM` branch of `calculate_confidence` (lines 155-160), as
evaluated at lines 264-267 where the candidate's scalar momentum and RSI
are written into the frame before the call:
`min(round(0.4 + momentum*2 + (1 - rsi/100)*0.2, 2), 0.98)`. -/
def n1_confidence (momentum rsi : ℚ) : ℚ :=
  min (round2 (2/5 + momentum * 2 + (1 - rsi / 100) * (1/5))) (49/50)

/-- Bridge: on any frame of ≥ 2 rows whose last row carries the scalar
`momentum` and `RSI` columns, `calculate_confidence` for `N1_MOMENTUM`
equals `n1_confidence` of those scalars. -/
lemma calculate_confidence_n1 (df : List Row) (last prev : Row) (tl : List Row)
    (p1 p2 : ℕ) (hrev : df.reverse = last :: prev :: tl) :
    calculate_confidence df "N1_MOMENTUM" p1 p2 =
      n1_confidence (last.get "momentum" 0) (last.get "RSI" 50) := by
  simp [calculate_confidence, hrev, n1_confidence]

/-- The order-proposing tail of the `N1_MOMENTUM` branch of
`run_prediction` (auto_trade.py lines 244-305), as a function of the
already-ranked candidate list (sorted by momentum descending at line
245), the RSI ceiling `p2`, the held-or-pending symbol set `owned`
(lines 201-206), the confidence threshold, the per-stock budget, the
configured hedge asset and its latest close (`none` = no price row):
top 2 candidates are admitted if `rsi < p2` and the trend holds; each
admitted stock is ordered only if `shares = int(budget // price) > 0`,
the symbol is not owned, and its N1 confidence clears the threshold;
unfilled slots buy the hedge asset (unless it is `CASH`) with
`shares = int(budget*slots // price) > 0` — with no confidence or
ownership check (lines 291-305). -/
def n1_orders (candidates : List N1Candidate) (p2 : ℚ) (owned : List String)
    (conf_threshold budget : ℚ) (safe_asset_id : String)
    (safe_price : Option ℚ) : List ProposedOrder :=
  let top_picks := candidates.take 2
  let final_buy_list :=
    (top_picks.filter fun c => decide (c.rsi < p2) && c.trend_ok).map (·.stock_id)
  let stock_orders := final_buy_list.filterMap fun stock =>
    match candidates.find? (fun c => c.stock_id == stock) with
    | some c =>
        let shares := ⌊budget / c.price⌋
        if shares > 0 ∧ stock ∉ owned then
          if conf_threshold ≤ n1_confidence c.momentum c.rsi then
            some ⟨stock, round2 c.price, shares⟩
          else none
        else none
    | none => none
  let hedge :=
    if final_buy_list.length < 2 then
      if safe_asset_id = "CASH" then []
      else
        match safe_price with
        | some sp =>
            let shares := ⌊budget * ((2 : ℕ) - final_buy_list.length : ℕ) / sp⌋
            if shares > 0 then [⟨safe_asset_id, round2 sp, shares⟩] else []
        | none => []
    else []
  stock_orders ++ hedge

lemma round2_of_int (z : ℤ) : round2 ((z : ℚ)) = (z : ℚ) := by
  have h1 : ((z : ℚ)) * 100 = ((100 * z : ℤ) : ℚ) := by push_cast; ring
  have h2 : ⌊((100 * z : ℤ) : ℚ)⌋ = 100 * z := Int.floor_intCast _
  simp only [round2, h1, h2]
  rw [if_pos (by push_cast; norm_num)]
  push_cast
  ring

/-- C5 counterexample: with no admitted risk candidates, the hedge asset
`00679B.TW` already held (`owned`), budget 100000 and hedge close 30,
`run_prediction` still emits a 6666-share BUY for `00679B.TW`: the hedge
order is proposed for a symbol that is already in inventory, and without
any confidence computation. -/
theorem C5_counterexample :
    n1_orders [] 70 ["00679B.TW"] (7/10) 100000 "00679B.TW" (some 30) =
      [⟨"00679B.TW", 30, 6666⟩] ∧
    "00679B.TW" ∈ ["00679B.TW"] := by
  constructor
  · have hsh : ⌊(100000 : ℚ) * ((2 : ℕ) - (0 : ℕ) : ℕ) / 30⌋ = 6666 := by
      rw [Int.floor_eq_iff]
      norm_num
    have h30 : round2 ((30 : ℚ)) = 30 := by
      have := round2_of_int 30
      norm_num at this
      exact this
    simp [n1_orders, hsh, h30]
    norm_num [hsh, h30]
  · simp

/-- C5 amended: every order the N1 branch emits for a symbol other than
the configured hedge asset passes both gates — its symbol is not among
held or pending symbols, and its candidate's N1 confidence is ≥ the
threshold; the hedge-asset order is exempt from both. -/
theorem C5_gating (candidates : List N1Candidate) (p2 : ℚ) (owned : List String)
    (th budget : ℚ) (safe : String) (sp : Option ℚ) (o : ProposedOrder)
    (ho : o ∈ n1_orders candidates p2 owned th budget safe sp)
    (hne : o.stock_id ≠ safe) :
    o.stock_id ∉ owned ∧
    ∃ c ∈ candidates, c.stock_id = o.stock_id ∧
      th ≤ n1_confidence c.momentum c.rsi := by
  simp only [n1_orders] at ho
  rcases List.mem_append.mp ho with hs | hh
  · obtain ⟨stock, hmem, hf⟩ := List.mem_filterMap.mp hs
    rcases hfind : candidates.find? (fun c => c.stock_id == stock) with _ | c
    · rw [hfind] at hf
      exact absurd hf (by simp)
    · rw [hfind] at hf
      simp only at hf
      split_ifs at hf with h1 h2
      obtain ⟨rfl⟩ : (⟨stock, round2 c.price, ⌊budget / c.price⌋⟩ : ProposedOrder) = o :=
        Option.some_inj.mp hf
      refine ⟨h1.2, c, List.mem_of_find?_eq_some hfind, ?_, h2⟩
      have := List.find?_some hfind
      simpa using this
  · exfalso
    split_ifs at hh with h1 h2
    · simp at hh
    · rcases hsp : sp with _ | v <;> rw [hsp] at hh
      · simp at hh
      · simp only at hh
        split_ifs at hh with h3
        · apply hne
          rw [List.mem_singleton.mp hh]
        · simp at hh
    · simp at hh

/-- Witness for C5: a single admitted candidate at price 100, momentum
0.1, RSI 50 produces the order `2330.TW`, which passes both gates. -/
theorem C5_gating_witness :
    ((⟨"2330.TW", 100, 1000⟩ : ProposedOrder).stock_id ∉ ([] : List String)) ∧
    ∃ c ∈ [(⟨"2330.TW", 1/10, 50, 100, true⟩ : N1Candidate)],
      c.stock_id = (⟨"2330.TW", 100, 1000⟩ : ProposedOrder).stock_id ∧
      (7/10 : ℚ) ≤ n1_confidence c.momentum c.rsi := by
  refine C5_gating [⟨"2330.TW", 1/10, 50, 100, true⟩] 70 [] (7/10) 100000
    "CASH" none ⟨"2330.TW", 100, 1000⟩ ?_ (by decide)
  have hsh : ⌊(100000 : ℚ) / 100⌋ = 1000 := by
    rw [Int.floor_eq_iff]
    norm_num
  have hconf : n1_confidence (1/10) 50 = 7/10 := by
    have h7 : ((2 : ℚ)/5 + (1/10) * 2 + (1 - 50 / 100) * (1/5)) = 7/10 := by norm_num
    have hr : round2 ((7 : ℚ)/10) = 7/10 := by
      have hf : ⌊(7 : ℚ)/10 * 100⌋ = 70 := by
        rw [show (7 : ℚ)/10 * 100 = ((70 : ℤ) : ℚ) by norm_num]
        exact Int.floor_intCast _
      simp only [round2, hf]
      rw [if_pos (by norm_num)]
      norm_num
    rw [n1_confidence, h7, hr]
    norm_num
  have h100 : round2 ((100 : ℚ)) = 100 := by
    have := round2_of_int 100
    norm_num at this
    exact this
  simp only [n1_orders, List.take, List.filter, List.map, List.mem_singleton]
  simp [hsh, hconf, h100]
  rw [show ((10 : ℚ)⁻¹) = 1/10 by norm_num, hconf]

/-- `ta.sma(close, length=w)` at row `i`: arithmetic mean of the `w`
closes ending at row `i`; `none` (pandas NaN) while fewer than `w` closes
exist, or out of range. -/
def sma (w : ℕ) (closes : List ℚ) (i : ℕ) : Option ℚ :=
  if w ≤ i + 1 ∧ i < closes.length then
    some ((((closes.take (i + 1)).drop (i + 1 - w)).sum) / w)
  else none

/-- `run_prediction` line 396: the golden-cross indicator at row `i`,
`(MA_S.shift(1) < MA_L.shift(1)) & (MA_S > MA_L)`.  A comparison against
NaN — an undefined SMA, or row 0 where `shift(1)` is NaN — is false. -/
def is_cross (p1 p2 : ℕ) (closes : List ℚ) : ℕ → Bool
  | 0 => false
  | (j + 1) =>
    match sma p1 closes j, sma p2 closes j,
          sma p1 closes (j + 1), sma p2 closes (j + 1) with
    | some sPrev, some lPrev, some sCur, some lCur =>
        decide (sPrev < lPrev) && decide (lCur < sCur)
    | _, _, _, _ => false

/-- `run_prediction` line 402: `if is_cross.tail(3).any(): signal = True` —
the MA_CROSS entry signal fires when the cross indicator is true on any
of the last three rows of the frame. -/
def ma_cross_signal (p1 p2 : ℕ) (closes : List ℚ) : Bool :=
  ((List.range closes.length).drop (closes.length - 3)).any
    (is_cross p1 p2 closes)

lemma mem_range_drop {n m i : ℕ} (hi : i < n) (hm : m ≤ i) :
    i ∈ (List.range n).drop m := by
  rw [List.mem_iff_getElem]
  refine ⟨i - m, ?_, ?_⟩
  · simp only [List.length_drop, List.length_range]
    omega
  · simp only [List.getElem_drop, List.getElem_range]
    omega

lemma sma_take_congr (w : ℕ) {i : ℕ} {c d : List ℚ}
    (h : c.take (i + 1) = d.take (i + 1))
    (hc : i < c.length) (hd : i < d.length) :
    sma w c i = sma w d i := by
  by_cases hw : w ≤ i + 1
  · rw [sma, sma, if_pos ⟨hw, hc⟩, if_pos ⟨hw, hd⟩, h]
  · rw [sma, sma, if_neg (fun hh => hw hh.1), if_neg (fun hh => hw hh.1)]

lemma is_cross_congr (p1 p2 : ℕ) {i : ℕ} {c d : List ℚ}
    (h : c.take (i + 1) = d.take (i + 1))
    (hc : i < c.length) (hd : i < d.length) :
    is_cross p1 p2 c i = is_cross p1 p2 d i := by
  cases i with
  | zero => rfl
  | succ j =>
    have hj : c.take (j + 1) = d.take (j + 1) := by
      have h2 := congrArg (List.take (j + 1)) h
      simpa [List.take_take] using h2
    have hcj : j < c.length := Nat.lt_of_succ_lt hc
    have hdj : j < d.length := Nat.lt_of_succ_lt hd
    simp only [is_cross]
    rw [sma_take_congr p1 hj hcj hdj, sma_take_congr p2 hj hcj hdj,
      sma_take_congr p1 h hc hd, sma_take_congr p2 h hc hd]

lemma is_cross_eq (p1 p2 : ℕ) (c : List ℚ) (j : ℕ) (a b d e : ℚ)
    (h1 : sma p1 c j = some a) (h2 : sma p2 c j = some b)
    (h3 : sma p1 c (j + 1) = some d) (h4 : sma p2 c (j + 1) = some e) :
    is_cross p1 p2 c (j + 1) = (decide (a < b) && decide (e < d)) := by
  simp only [is_cross, h1, h2, h3, h4]

/-- A 25-bar close series that declines by 1 per bar through bar 23 and
spikes at bar 24 — the 5-bar SMA crosses from below to above the 20-bar
SMA exactly at bar 24. -/
def c4closes : List ℚ :=
  [123, 122, 121, 120, 119, 118, 117, 116, 115, 114, 113, 112, 111, 110,
   109, 108, 107, 106, 105, 104, 103, 102, 101, 100, 200]

lemma c4_s5_19 : sma 5 c4closes 19 = some 106 := by
  rw [show sma 5 c4closes 19 =
    some ((([108, 107, 106, 105, 104] : List ℚ)).sum / 5) from rfl]
  norm_num

lemma c4_s5_20 : sma 5 c4closes 20 = some 105 := by
  rw [show sma 5 c4closes 20 =
    some ((([107, 106, 105, 104, 103] : List ℚ)).sum / 5) from rfl]
  norm_num

lemma c4_s5_21 : sma 5 c4closes 21 = some 104 := by
  rw [show sma 5 c4closes 21 =
    some ((([106, 105, 104, 103, 102] : List ℚ)).sum / 5) from rfl]
  norm_num

lemma c4_s5_22 : sma 5 c4closes 22 = some 103 := by
  rw [show sma 5 c4closes 22 =
    some ((([105, 104, 103, 102, 101] : List ℚ)).sum / 5) from rfl]
  norm_num

lemma c4_s5_23 : sma 5 c4closes 23 = some 102 := by
  rw [show sma 5 c4closes 23 =
    some ((([104, 103, 102, 101, 100] : List ℚ)).sum / 5) from rfl]
  norm_num

lemma c4_s5_24 : sma 5 c4closes 24 = some (606/5) := by
  rw [show sma 5 c4closes 24 =
    some ((([103, 102, 101, 100, 200] : List ℚ)).sum / 5) from rfl]
  norm_num

lemma c4_s20_19 : sma 20 c4closes 19 = some (227/2) := by
  rw [show sma 20 c4closes 19 =
    some ((([123, 122, 121, 120, 119, 118, 117, 116, 115, 114, 113, 112,
             111, 110, 109, 108, 107, 106, 105, 104] : List ℚ)).sum / 20) from rfl]
  norm_num

lemma c4_s20_20 : sma 20 c4closes 20 = some (225/2) := by
  rw [show sma 20 c4closes 20 =
    some ((([122, 121, 120, 119, 118, 117, 116, 115, 114, 113, 112, 111,
             110, 109, 108, 107, 106, 105, 104, 103] : List ℚ)).sum / 20) from rfl]
  norm_num

lemma c4_s20_21 : sma 20 c4closes 21 = some (223/2) := by
  rw [show sma 20 c4closes 21 =
    some ((([121, 120, 119, 118, 117, 116, 115, 114, 113, 112, 111, 110,
             109, 108, 107, 106, 105, 104, 103, 102] : List ℚ)).sum / 20) from rfl]
  norm_num

lemma c4_s20_22 : sma 20 c4closes 22 = some (221/2) := by
  rw [show sma 20 c4closes 22 =
    some ((([120, 119, 118, 117, 116, 115, 114, 113, 112, 111, 110, 109,
             108, 107, 106, 105, 104, 103, 102, 101] : List ℚ)).sum / 20) from rfl]
  norm_num

lemma c4_s20_23 : sma 20 c4closes 23 = some (219/2) := by
  rw [show sma 20 c4closes 23 =
    some ((([119, 118, 117, 116, 115, 114, 113, 112, 111, 110, 109, 108,
             107, 106, 105, 104, 103, 102, 101, 100] : List ℚ)).sum / 20) from rfl]
  norm_num

lemma c4_s20_24 : sma 20 c4closes 24 = some (2271/20) := by
  rw [show sma 20 c4closes 24 =
    some ((([118, 117, 116, 115, 114, 113, 112, 111, 110, 109, 108, 107,
             106, 105, 104, 103, 102, 101, 100, 200] : List ℚ)).sum / 20) from rfl]
  norm_num

lemma c4_cross_20 : is_cross 5 20 c4closes 20 = false := by
  rw [is_cross_eq 5 20 c4closes 19 106 (227/2) 105 (225/2)
    c4_s5_19 c4_s20_19 c4_s5_20 c4_s20_20]
  have h : ¬((225/2 : ℚ) < 105) := by norm_num
  rw [decide_eq_false h]
  simp

lemma c4_cross_21 : is_cross 5 20 c4closes 21 = false := by
  rw [is_cross_eq 5 20 c4closes 20 105 (225/2) 104 (223/2)
    c4_s5_20 c4_s20_20 c4_s5_21 c4_s20_21]
  have h : ¬((223/2 : ℚ) < 104) := by norm_num
  rw [decide_eq_false h]
  simp

lemma c4_cross_22 : is_cross 5 20 c4closes 22 = false := by
  rw [is_cross_eq 5 20 c4closes 21 104 (223/2) 103 (221/2)
    c4_s5_21 c4_s20_21 c4_s5_22 c4_s20_22]
  have h : ¬((221/2 : ℚ) < 103) := by norm_num
  rw [decide_eq_false h]
  simp

lemma c4_cross_23 : is_cross 5 20 c4closes 23 = false := by
  rw [is_cross_eq 5 20 c4closes 22 103 (221/2) 102 (219/2)
    c4_s5_22 c4_s20_22 c4_s5_23 c4_s20_23]
  have h : ¬((219/2 : ℚ) < 102) := by norm_num
  rw [decide_eq_false h]
  simp

lemma c4_cross_24 : is_cross 5 20 c4closes 24 = true := by
  rw [is_cross_eq 5 20 c4closes 23 102 (219/2) (606/5) (2271/20)
    c4_s5_23 c4_s20_23 c4_s5_24 c4_s20_24]
  have h1 : (102 : ℚ) < 219/2 := by norm_num
  have h2 : (2271/20 : ℚ) < 606/5 := by norm_num
  rw [decide_eq_true h1, decide_eq_true h2]
  rfl

lemma c4_no_cross :
    ((List.range 24).all fun i => ! is_cross 5 20 c4closes i) = true := by
  rw [List.all_eq_true]
  intro i hi
  have hi24 : i < 24 := List.mem_range.mp hi
  interval_cases i
  · rfl
  · rfl
  · rfl
  · rfl
  · rfl
  · rfl
  · rfl
  · rfl
  · rfl
  · rfl
  · rfl
  · rfl
  · rfl
  · rfl
  · rfl
  · rfl
  · rfl
  · rfl
  · rfl
  · rfl
  · rw [c4_cross_20]
    rfl
  · rw [c4_cross_21]
    rfl
  · rw [c4_cross_22]
    rfl
  · rw [c4_cross_23]
    rfl

/-- A 21-bar close series, flat at 100 through bar 19 with a spike at
bar 20: on bar 19 the 5-bar SMA equals the 20-bar SMA, and on bar 20 the
5-bar SMA is strictly above it — a cross "from ≤ to >" whose prior bar
sits exactly on the boundary. -/
def c4eq : List ℚ :=
  [100, 100, 100, 100, 100, 100, 100, 100, 100, 100,
   100, 100, 100, 100, 100, 100, 100, 100, 100, 100, 200]

lemma c4eq_s5_19 : sma 5 c4eq 19 = some 100 := by
  rw [show sma 5 c4eq 19 =
    some ((([100, 100, 100, 100, 100] : List ℚ)).sum / 5) from rfl]
  norm_num

lemma c4eq_s20_19 : sma 20 c4eq 19 = some 100 := by
  rw [show sma 20 c4eq 19 =
    some ((([100, 100, 100, 100, 100, 100, 100, 100, 100, 100, 100, 100,
             100, 100, 100, 100, 100, 100, 100, 100] : List ℚ)).sum / 20) from rfl]
  norm_num

lemma c4eq_s5_20 : sma 5 c4eq 20 = some 120 := by
  rw [show sma 5 c4eq 20 =
    some ((([100, 100, 100, 100, 200] : List ℚ)).sum / 5) from rfl]
  norm_num

lemma c4eq_s20_20 : sma 20 c4eq 20 = some 105 := by
  rw [show sma 20 c4eq 20 =
    some ((([100, 100, 100, 100, 100, 100, 100, 100, 100, 100, 100, 100,
             100, 100, 100, 100, 100, 100, 100, 200] : List ℚ)).sum / 20) from rfl]
  norm_num

lemma c4eq_no_signal : ma_cross_signal 5 20 c4eq = false := by
  have h20 : is_cross 5 20 c4eq 20 = false := by
    rw [is_cross_eq 5 20 c4eq 19 100 100 120 105
      c4eq_s5_19 c4eq_s20_19 c4eq_s5_20 c4eq_s20_20]
    have h : ¬((100 : ℚ) < 100) := by norm_num
    rw [decide_eq_false h]
    simp
  rw [ma_cross_signal, show c4eq.length = 21 from rfl,
    show (List.range 21).drop (21 - 3) = [18, 19, 20] from rfl]
  simp only [List.any_cons, List.any_nil]
  rw [h20, show is_cross 5 20 c4eq 18 = false from rfl,
    show is_cross 5 20 c4eq 19 = false from rfl]
  rfl

/-- C4 counterexample, refuting both halves of the claim.  (i) In
`c4closes` the 5-bar SMA crosses (strictly) above the 20-bar SMA exactly
at the last bar, t = 24, and at no earlier bar; evaluated one bar later
— the same series extended by one more close — the MA_CROSS evaluator
still fires, because the signal looks for a cross anywhere in the last
three bars.  (ii) In `c4eq` the 5-bar SMA crosses from ≤ the 20-bar SMA
(they are equal on bar 19) to > (120 vs 105 on bar 20), a crossing the
claim says fires at bar t = 20; the evaluator does not fire, because the
code's prior-bar comparison at line 396 is strict (`<`, not `≤`). -/
theorem C4_counterexample :
    (is_cross 5 20 c4closes 24 = true ∧
     ((List.range 24).all fun i => ! is_cross 5 20 c4closes i) = true ∧
     ma_cross_signal 5 20 (c4closes ++ [200]) = true) ∧
    (sma 5 c4eq 19 = sma 20 c4eq 19 ∧
     sma 5 c4eq 20 = some 120 ∧ sma 20 c4eq 20 = some 105 ∧
     ma_cross_signal 5 20 c4eq = false) := by
  refine ⟨⟨c4_cross_24, c4_no_cross, ?_⟩,
    by rw [c4eq_s5_19, c4eq_s20_19], c4eq_s5_20, c4eq_s20_20, c4eq_no_signal⟩
  have hlen : (c4closes ++ [200]).length = 26 := rfl
  have hcross : is_cross 5 20 (c4closes ++ [200]) 24 = true := by
    have htake : (c4closes ++ [200]).take 25 = c4closes.take 25 := rfl
    rw [is_cross_congr 5 20 htake (by decide) (by decide), c4_cross_24]
  rw [ma_cross_signal, hlen, List.any_eq_true]
  exact ⟨24, mem_range_drop (by norm_num) (by norm_num), hcross⟩

/-- C4 amended: for any close series in which the golden cross of the
code (previous-bar short SMA strictly below the long SMA, current-bar
short SMA strictly above it) occurs exactly at the most recent bar t and
at no earlier bar, the MA_CROSS evaluator fires at bar t; it also still
fires when evaluated at bar t+1 and at bar t+2 (the same series extended
by any one or two further closes, absent a second crossing there); and
it does not fire at bar t−1. -/
theorem C4_window_fire (p1 p2 : ℕ) (c : List ℚ) (x y : ℚ)
    (hn : 1 ≤ c.length)
    (h1 : is_cross p1 p2 c (c.length - 1) = true)
    (h2 : ((List.range (c.length - 1)).all fun i => ! is_cross p1 p2 c i) = true) :
    ma_cross_signal p1 p2 c = true ∧
    ma_cross_signal p1 p2 (c ++ [x]) = true ∧
    ma_cross_signal p1 p2 (c ++ [x, y]) = true ∧
    ma_cross_signal p1 p2 c.dropLast = false := by
  refine ⟨?_, ?_, ?_, ?_⟩
  · rw [ma_cross_signal, List.any_eq_true]
    exact ⟨c.length - 1, mem_range_drop (by omega) (by omega), h1⟩
  · have hlen : (c ++ [x]).length = c.length + 1 := by simp
    rw [ma_cross_signal, hlen, List.any_eq_true]
    refine ⟨c.length - 1, mem_range_drop (by omega) (by omega), ?_⟩
    have hsucc : c.length - 1 + 1 = c.length := by omega
    have htake : (c ++ [x]).take (c.length - 1 + 1) = c.take (c.length - 1 + 1) := by
      rw [hsucc, List.take_left, List.take_length]
    rw [is_cross_congr p1 p2 htake (by omega) (by simp; omega), h1]
  · have hlen : (c ++ [x, y]).length = c.length + 2 := by simp
    rw [ma_cross_signal, hlen, List.any_eq_true]
    refine ⟨c.length - 1, mem_range_drop (by omega) (by omega), ?_⟩
    have hsucc : c.length - 1 + 1 = c.length := by omega
    have htake : (c ++ [x, y]).take (c.length - 1 + 1) = c.take (c.length - 1 + 1) := by
      rw [hsucc, List.take_left, List.take_length]
    rw [is_cross_congr p1 p2 htake (by omega) (by simp; omega), h1]
  · rw [ma_cross_signal, List.any_eq_false]
    intro i hi
    have hi2 : i ∈ List.range c.dropLast.length := List.mem_of_mem_drop hi
    have hilt : i < c.dropLast.length := List.mem_range.mp hi2
    have hlen2 : c.dropLast.length = c.length - 1 := by
      simp [List.length_dropLast]
    have hicl : i < c.length := by omega
    have htake : c.dropLast.take (i + 1) = c.take (i + 1) := by
      rw [List.dropLast_eq_take, List.take_take]
      congr 1
      omega
    rw [is_cross_congr p1 p2 htake hilt hicl]
    have hall := List.all_eq_true.mp h2 i (List.mem_range.mpr (by omega))
    simp only [Bool.not_eq_true'] at hall
    simp [hall]

/-- Witness for C4 at the concrete series `c4closes`, extended by one
and by two further closes of 200: the signal fires at the cross bar, one
bar later and two bars later, and not one bar earlier. -/
theorem C4_window_fire_witness :
    ma_cross_signal 5 20 c4closes = true ∧
    ma_cross_signal 5 20 (c4closes ++ [200]) = true ∧
    ma_cross_signal 5 20 (c4closes ++ [200, 200]) = true ∧
    ma_cross_signal 5 20 c4closes.dropLast = false := by
  have hlen : c4closes.length = 25 := rfl
  refine C4_window_fire 5 20 c4closes 200 200 (by rw [hlen]; norm_num) ?_ ?_
  · rw [hlen]
    exact c4_cross_24
  · rw [hlen]
    exact c4_no_cross

end AutoTrade
